import Mathlib

/-!
Verification of the Google-Drive-to-Box migration tool's tree-construction and
path-reconciliation core, shallowly embedded from the Python sources
(`box_interface.py`, `drive_interface.py`, `drive-to-box-migration-tool.py`).

Names are modelled as lists of characters (`Str`), Python `None` as `Option`,
Python exceptions as `Except`, and the in-place mutation of `BoxObject`s as
explicit state passing over lists of records.
-/

/-- Strings are modelled as lists of characters, so that Python's `str.replace`,
`str.split` and truthiness semantics can be implemented and reasoned about
directly. -/
abbrev Str := List Char

/-- Python truthiness of an optional string: `None` and the empty string are
falsy, every other string is truthy (used by `if box_file.path:` etc.). -/
def pyTruthyStr : Option Str → Bool
  | none => false
  | some s => !s.isEmpty

/-- Python truthiness of an optional boolean (a function returning `None`,
`True` or `False`): `None` and `False` are falsy. -/
def pyTruthyOpt : Option Bool → Bool
  | none => false
  | some b => b

/-- Python's substring test `pat in s` (for the patterns used by the tool). -/
def containsPat (pat : Str) : Str → Bool
  | [] => pat.isEmpty
  | c :: cs => pat.isPrefixOf (c :: cs) || containsPat pat cs

/-- One fuel-indexed step list for Python's `str.replace`: scan left to right,
replacing each non-overlapping occurrence of `pat` by `rep`.  The fuel is the
length of the scanned string, which suffices for the non-empty patterns the
source uses. -/
def pyReplaceFuel (pat rep : Str) : Nat → Str → Str
  | 0, s => s
  | _ + 1, [] => []
  | fuel + 1, c :: cs =>
    if pat.isPrefixOf (c :: cs) then
      rep ++ pyReplaceFuel pat rep fuel (List.drop pat.length (c :: cs))
    else
      c :: pyReplaceFuel pat rep fuel cs

/-- Python's `s.replace(pat, rep)`. -/
def pyReplace (pat rep s : Str) : Str := pyReplaceFuel pat rep s.length s

/-- Python's `s.split('/')` (so `splitSlash []` is `[[]]`, like `"".split('/')`). -/
def splitSlash : Str → List Str
  | [] => [[]]
  | c :: cs =>
    if c = '/' then [] :: splitSlash cs
    else
      match splitSlash cs with
      | [] => [[c]]
      | p :: ps => (c :: p) :: ps

/-- The literal `'002f'` from `BoxObject.__init__`. -/
def pat002f : Str := ['0', '0', '2', 'f']

/-- The literal `' - Modify'` from `BoxObject.__init__`. -/
def patModify : Str := [' ', '-', ' ', 'M', 'o', 'd', 'i', 'f', 'y']

/-- The name normalization performed by `BoxObject.__init__`
(box_interface.py lines 395-398): when the raw name contains `'002f'`,
replace every occurrence of `'002f'` by `'/'` and then remove every
occurrence of `' - Modify'`. -/
def normalizeBoxName (s : Str) : Str :=
  if containsPat pat002f s then
    pyReplace patModify [] (pyReplace pat002f ['/'] s)
  else s

/-- Shallow embedding of `BoxObject` (box_interface.py lines 368-414).
The Python `parent` attribute is an object reference; here it is the index of
the parent inside the folder list the object lives next to. -/
structure BoxObj where
  id : Nat
  name : Str
  parent_id : Option Nat
  parent : Option Nat
  path : Option Str
deriving DecidableEq, Repr

/-- `BoxObject.__init__` (box_interface.py lines 384-401).  Note that the
`self.path = name` branch for a `None` parent id stores the raw constructor
parameter `name`, not the normalized `self.name`. -/
def mkBoxObject (identifier : Nat) (name : Str) (parent_id : Option Nat) : BoxObj :=
  { id := identifier
    name := normalizeBoxName name
    parent_id := parent_id
    parent := none
    path := match parent_id with
            | none => some name
            | some _ => none }

/-- `self.parent.path if self.parent.path else self.parent.name` from
`BoxObject.set_parent` (Python truthiness: `None` and `''` both fall back to
the parent's name). -/
def pathOrName (o : BoxObj) : Str :=
  match o.path with
  | some s => if s = [] then o.name else s
  | none => o.name

/-- The path concatenation performed by `BoxObject.set_parent`
(box_interface.py line 414). -/
def linkedPath (par child : BoxObj) : Str :=
  pathOrName par ++ '/' :: child.name

/-- `BoxObject.set_parent` applied to the object at index `k` of the state,
with the object at index `p` as the parent. -/
def setParentAt (st : List BoxObj) (k p : Nat) : List BoxObj :=
  match st[k]?, st[p]? with
  | some child, some par =>
    st.set k { child with parent := some p, path := some (linkedPath par child) }
  | _, _ => st

/-- `_map_child_folders` (box_interface.py lines 145-158): for each folder in
the list whose `parent_id` equals the parent's id, set its parent (computing
its path) and recurse into it.  The fuel bounds the recursion depth; every
execution that terminates in Python has depth at most the number of folders,
so `buildBox` passes `length + 1`. -/
def mapChildFolders : Nat → Nat → List BoxObj → List BoxObj
  | 0, _, st => st
  | fuel + 1, p, st =>
    (List.range st.length).foldl
      (fun acc k =>
        match acc[k]?, acc[p]? with
        | some child, some par =>
          if child.parent_id = some par.id then
            mapChildFolders fuel k (setParentAt acc k p)
          else acc
        | _, _ => acc)
      st

/-- Index of the first folder whose id matches the given parent id (the inner
loop with `break` of box_interface.py lines 247-251). -/
def findFolderIdx (pid : Option Nat) : List BoxObj → Option Nat
  | [] => none
  | fol :: rest =>
    if pid = some fol.id then some 0
    else (findFolderIdx pid rest).map (· + 1)

/-- The file-to-folder mapping step of `Box.__init__` (lines 247-251): link a
file to the first folder whose id equals the file's `parent_id`, if any. -/
def linkFile (folders : List BoxObj) (f : BoxObj) : BoxObj :=
  match findFolderIdx f.parent_id folders with
  | some j =>
    match folders[j]? with
    | some fol => { f with parent := some j, path := some (linkedPath fol f) }
    | none => f
  | none => f

/-- A raw listing result from the Box backend (id, name, parent id), the data
`Box.__init__` extracts from each search result. -/
structure RawBox where
  id : Nat
  name : Str
  parent_id : Option Nat
deriving DecidableEq, Repr

/-- The built Box hierarchy: `files`, `folders` and the configured prefix. -/
structure BoxData where
  files : List BoxObj
  folders : List BoxObj
  pathPrefix : Str
deriving DecidableEq, Repr

/-- The tree-building part of `Box.__init__` (box_interface.py lines 194-251):
materialize the root object (named with the path prefix), materialize every
raw file and folder, map folder parents recursively from the root, then link
each file to the first folder matching its parent id. -/
def buildBox (pfx : Str) (rootId : Nat) (rawFiles rawFolders : List RawBox) : BoxData :=
  let rootObject := mkBoxObject rootId pfx none
  let files0 := rawFiles.map (fun r => mkBoxObject r.id r.name r.parent_id)
  let folders0 := rootObject :: rawFolders.map (fun r => mkBoxObject r.id r.name r.parent_id)
  let folders1 := mapChildFolders (folders0.length + 1) 0 folders0
  let files1 := files0.map (linkFile folders1)
  { files := files1, folders := folders1, pathPrefix := pfx }

/-- `Box.get_file_via_path` (box_interface.py lines 311-327): first file whose
`path` equals the queried path. -/
def getFileViaPath (files : List BoxObj) (p : Str) : Option BoxObj :=
  files.find? (fun f => decide (f.path = some p))

/-- The folder-by-path scan of `Box.print_box` (box_interface.py lines 339-342). -/
def getFolderViaPath (folders : List BoxObj) (p : Str) : Option BoxObj :=
  folders.find? (fun f => decide (f.path = some p))

/-! ### Root resolution (`Box._get_root_folder`)

The remote Box listing that `_get_root_folder` walks through is modelled as a
tree of items, `client.folder('0')` being the designated backend root and
`_retrieve_all_items` returning a folder's children. -/

/-- A remote Box item as seen through `_retrieve_all_items`: either a file or
a folder with children. -/
inductive RemoteItem where
  | file (id : Nat) (name : Str)
  | folder (id : Nat) (name : Str) (children : List RemoteItem)
deriving Repr

/-- The children a `_retrieve_all_items` call returns for an item. -/
def RemoteItem.childrenOf : RemoteItem → List RemoteItem
  | .file _ _ => []
  | .folder _ _ cs => cs

/-- The item's name. -/
def RemoteItem.nameOf : RemoteItem → Str
  | .file _ n => n
  | .folder _ n _ => n

/-- The item's backend id (`object_id`). -/
def RemoteItem.idOf : RemoteItem → Nat
  | .file i _ => i
  | .folder i _ _ => i

/-- `box_item.type == 'folder'`. -/
def RemoteItem.isFolderItem : RemoteItem → Bool
  | .folder _ _ _ => true
  | .file _ _ => false

/-- The inner loop of `_get_root_folder` (box_interface.py lines 281-285):
first child that is a folder and whose name equals the path segment. -/
def findChildFolder (items : List RemoteItem) (seg : Str) : Option RemoteItem :=
  items.find? (fun it => RemoteItem.isFolderItem it && decide (RemoteItem.nameOf it = seg))

/-- The segment-by-segment walk of `_get_root_folder` (lines 278-287): descend
into the matching child folder per segment, raising `FileNotFoundError`
(modelled as `Except.error ()`) when a segment has no matching child folder. -/
def walkSegs : List Str → RemoteItem → Except Unit RemoteItem
  | [], cur => .ok cur
  | seg :: rest, cur =>
    match findChildFolder (RemoteItem.childrenOf cur) seg with
    | some nxt => walkSegs rest nxt
    | none => .error ()

/-- The prefix-stripping step of `_get_root_folder` (lines 275-276):
`root_directory.replace(self.path_prefix + '/', '')` when `root_directory`
starts with the prefix. -/
def stripRootDir (pfx rd : Str) : Str :=
  if pfx.isPrefixOf rd then pyReplace (pfx ++ ['/']) [] rd else rd

/-- `Box._get_root_folder` (box_interface.py lines 266-288). -/
def get_root_folder (pfx : Str) (backendRoot : RemoteItem) (rootDirectory : Option Str) :
    Except Unit RemoteItem :=
  match rootDirectory with
  | none => .ok backendRoot
  | some rd => walkSegs (splitSlash (stripRootDir pfx rd)) backendRoot

/-- The start of `Box.__init__`: resolve the root (propagating its
`FileNotFoundError`, which aborts the whole build) and then build the
hierarchy from the raw listings. -/
def box_init (pfx : Str) (rootDirectory : Option Str) (backendRoot : RemoteItem)
    (rawFiles rawFolders : List RawBox) : Except Unit BoxData :=
  match get_root_folder pfx backendRoot rootDirectory with
  | .error e => .error e
  | .ok rootFolder => .ok (buildBox pfx (RemoteItem.idOf rootFolder) rawFiles rawFolders)

/-! ### Drive file construction (`Drive._build_drive`)

For the extension-repair claim only the naming of the created `File` node
matters: `_build_drive` (drive_interface.py lines 688-698) passes
`result['name']` to `File.__init__`, which stores it verbatim (lines 756-774);
the mime type is stored but never used to alter the name. -/

/-- The fields of a raw Drive listing result that determine the created node's
identity and name. -/
structure DriveRawResult where
  id : Nat
  name : Str
  mimeType : Str
deriving DecidableEq, Repr

/-- The `File(...)` construction of `Drive._build_drive` restricted to the
name-determining fields; `path` starts unset as in `File.__init__`. -/
structure DriveFileNode where
  id : Nat
  name : Str
  mime_type : Str
  path : Option Str
deriving DecidableEq, Repr

/-- `File(identifier=result['id'], name=result['name'], ...,
mime_type=result['mimeType'])` from `_build_drive`. -/
def driveFileOfResult (r : DriveRawResult) : DriveFileNode :=
  { id := r.id, name := r.name, mime_type := r.mimeType, path := none }

/-! ### The Metadata Sink (`Box.apply_metadata`)

`apply_metadata` talks to the remote metadata store.  The store is modelled as
a predicate on Box file ids (whether `legacyData` metadata exists), and the
remote behaviours that are outside the store's control — whether
`metadata.get()` raises `BoxAPIException`, and whether `metadata.create(...)`
succeeds or raises — are supplied by an environment.  A `metadata.create` is
assumed to behave the same way each time it is retried for the same file
within one call, which is what the deterministic `createBeh` expresses. -/

/-- Behaviour of a `metadata.create(...)` call for a given file. -/
inductive CreateRes where
  | ok
  | raiseAPI
  | raiseOther
deriving DecidableEq, Repr

/-- The remote behaviours `apply_metadata` is exposed to. -/
structure SinkEnv where
  getRaises : Nat → Bool
  createBeh : Nat → CreateRes

/-- Result of the `try:` block of `apply_metadata`: a returned value (always
`None`) with the updated store, or a raised exception. -/
inductive TryRes where
  | val (ret : Option Bool) (store : Nat → Bool)
  | exApi
  | exOther

/-- `Box.apply_metadata` (box_interface.py lines 290-309).  Inside the `try:`,
`metadata.get()` either raises `BoxAPIException` or reports the store; when it
reports no metadata, `metadata.create` runs.  A `BoxAPIException` from the
`try:` body triggers one more `metadata.create` in the `except:` handler,
whose own failure propagates.  The function body has no `return`, so Python
returns `None`: the `Option Bool` in the result is always `none`. -/
def apply_metadata (env : SinkEnv) (store : Nat → Bool) (i : Nat) :
    Except Unit (Option Bool × (Nat → Bool)) :=
  let created : Nat → Bool := fun n => if n = i then true else store n
  let tryBlock : TryRes :=
    if env.getRaises i then TryRes.exApi
    else if store i then TryRes.val none store
    else
      match env.createBeh i with
      | CreateRes.ok => TryRes.val none created
      | CreateRes.raiseAPI => TryRes.exApi
      | CreateRes.raiseOther => TryRes.exOther
  match tryBlock with
  | TryRes.val r s => .ok (r, s)
  | TryRes.exApi =>
    match env.createBeh i with
    | CreateRes.ok => .ok (none, created)
    | CreateRes.raiseAPI => .error ()
    | CreateRes.raiseOther => .error ()
  | TryRes.exOther => .error ()

/-! ### The Path Reconciler (`migrate_metadata`)

`drive-to-box-migration-tool.py` lines 79-132.  `drive.files` is a Python set;
its iteration order is arbitrary, so the embedding quantifies over an
enumeration of it as a list.  The `sinkCalls` field is pure instrumentation
recording the Box file ids on which `apply_metadata` is invoked; it changes no
behaviour. -/

/-- A source Drive file as the reconciler sees it: only its path drives the
control flow (its metadata fields are payload forwarded to the Sink). -/
structure DriveFile where
  id : Nat
  path : Option Str
deriving DecidableEq, Repr

/-- The reconciler's mutable state: the five result lists of
`migrate_metadata`, the remote metadata store, and the instrumentation trace
of Sink invocations. -/
structure MigState where
  matched : List Str
  existing : List Str
  driveMissed : List Str
  boxMissed : List Str
  dups : List Str
  store : Nat → Bool
  sinkCalls : List Nat

/-- The `try: box_missed_files.remove(...) except ValueError: duplicate_files
.append(...)` block of `migrate_metadata` (lines 121-127): remove the first
occurrence of the matched path from `box_missed_files`, or record it as a
duplicate when it has already been removed. -/
def dupStep (p : Str) (st : MigState) : MigState :=
  if p ∈ st.boxMissed then { st with boxMissed := st.boxMissed.erase p }
  else { st with dups := st.dups ++ [p] }

/-- The body of the `for drive_file in drive.files:` loop of
`migrate_metadata` (lines 104-132) for one drive file.  An uncaught exception
from `apply_metadata` is `Except.error`, carrying the state at the moment of
the abort (in particular the remove/duplicate block does not run then). -/
def migrateStep (box : List BoxObj) (env : SinkEnv) (testOnly : Bool)
    (st : MigState) (df : DriveFile) : Except MigState MigState :=
  if !pyTruthyStr df.path then .ok st
  else
    match df.path with
    | none => .ok st
    | some p =>
      match getFileViaPath box p with
      | none => .ok { st with driveMissed := st.driveMissed ++ [p] }
      | some bf =>
        if testOnly then .ok (dupStep p { st with matched := st.matched ++ [p] })
        else
          let st1 := { st with sinkCalls := st.sinkCalls ++ [bf.id] }
          match apply_metadata env st1.store bf.id with
          | .error _ => .error st1
          | .ok (ret, store2) =>
            let st2 := { st1 with store := store2 }
            if pyTruthyOpt ret then .ok (dupStep p { st2 with matched := st2.matched ++ [p] })
            else .ok (dupStep p { st2 with existing := st2.existing ++ [p] })

/-- The walk over all source files; an exception aborts the remainder. -/
def migrateLoop (box : List BoxObj) (env : SinkEnv) (testOnly : Bool) :
    List DriveFile → MigState → Except MigState MigState
  | [], st => .ok st
  | df :: dfs, st =>
    match migrateStep box env testOnly st df with
    | .error e => .error e
    | .ok st2 => migrateLoop box env testOnly dfs st2

/-- `if box_file.path:` applied to a path when seeding `box_missed_files`. -/
def truthyPath : Option Str → Option Str
  | some p => if p = [] then none else some p
  | none => none

/-- `migrate_metadata` (drive-to-box-migration-tool.py lines 79-132): seed
`box_missed_files` with every truthy Box file path, then walk the source
files. -/
def migrate_metadata (box : List BoxObj) (drive : List DriveFile) (env : SinkEnv)
    (store0 : Nat → Bool) (testOnly : Bool) : Except MigState MigState :=
  migrateLoop box env testOnly drive
    { matched := []
      existing := []
      driveMissed := []
      boxMissed := box.filterMap (fun f => truthyPath f.path)
      dups := []
      store := store0
      sinkCalls := [] }

/-- The state a run ends in, whether it completed or aborted. -/
def outState : Except MigState MigState → MigState
  | .ok st => st
  | .error st => st

/-- Whether a run aborted with an uncaught exception. -/
def isErrorRun : Except MigState MigState → Bool
  | .ok _ => false
  | .error _ => true

/-! ### Auxiliary definitions used by the statements and proofs -/

/-- Convenience conversion from a string literal to the character-list model. -/
def strOf (s : String) : Str := s.toList

/-- A Sink environment in which every `metadata.create` succeeds (the
`metadata.get` behaviour `g` stays arbitrary). -/
def benignEnv (g : Nat → Bool) : SinkEnv :=
  { getRaises := g, createBeh := fun _ => CreateRes.ok }

/-- A fully well-behaved Sink environment. -/
def envOkAll : SinkEnv :=
  { getRaises := fun _ => false, createBeh := fun _ => CreateRes.ok }

/-- A Sink environment in which `metadata.create` raises for Box file id 1 and
succeeds for every other file. -/
def envCreateFails1 : SinkEnv :=
  { getRaises := fun _ => false
    createBeh := fun i => if i = 1 then CreateRes.raiseOther else CreateRes.ok }

/-- The fields of a `BoxObj` that the tree-building pass never mutates
(`set_parent` only writes `parent` and `path`). -/
def statics (o : BoxObj) : Nat × Str × Option Nat := (o.id, o.name, o.parent_id)

/-- Invariant of the reconciler's state: every path in `drive_missed_files`
fails the Box lookup, and every path in `matched`, `box_missed_files` and
`duplicate_files` succeeds it. -/
def lookupOkInv (box : List BoxObj) (st : MigState) : Prop :=
  (∀ q ∈ st.driveMissed, getFileViaPath box q = none)
  ∧ (∀ q ∈ st.matched, (getFileViaPath box q).isSome = true)
  ∧ (∀ q ∈ st.boxMissed, (getFileViaPath box q).isSome = true)
  ∧ (∀ q ∈ st.dups, (getFileViaPath box q).isSome = true)

/-- Correspondence between the states of a dry (`test_only`) run and a real
run over the same inputs: the miss and duplicate lists agree, the dry
`matched` list is as long as the real `matched` and `existing` lists
together, and the dry run has invoked the Sink on nothing. -/
def dryRealRel (stT stR : MigState) : Prop :=
  stT.driveMissed = stR.driveMissed
  ∧ stT.boxMissed = stR.boxMissed
  ∧ stT.dups = stR.dups
  ∧ stT.matched.length = stR.matched.length + stR.existing.length
  ∧ stT.sinkCalls = []

/-- A destination hierarchy, built by the actual builder, holding two distinct
file nodes that share the path `D:/A/dup.txt`. -/
def dupBox : BoxData :=
  buildBox (strOf "D:") 0
    [⟨11, strOf "dup.txt", some 1⟩, ⟨12, strOf "dup.txt", some 1⟩]
    [⟨1, strOf "A", some 0⟩]

/-- A destination hierarchy with the single file `D:/a.txt` (Box id 1). -/
def oneBox : BoxData :=
  buildBox (strOf "D:") 0 [⟨1, strOf "a.txt", some 0⟩] []

/-- A destination hierarchy with the files `D:/a.txt` (id 1) and `D:/b.txt`
(id 2). -/
def twoBox : BoxData :=
  buildBox (strOf "D:") 0 [⟨1, strOf "a.txt", some 0⟩, ⟨2, strOf "b.txt", some 0⟩] []

/-- A remote Box listing for the root-resolution scenarios: the backend root
(id 0) containing one folder `a` (id 1), which contains folder `b` (id 2)
and a file `f`. -/
def demoTree : RemoteItem :=
  .folder 0 (strOf "All Files")
    [.folder 1 (strOf "a") [.file 9 (strOf "f"), .folder 2 (strOf "b") []]]

/-- A destination hierarchy with a single file at `D:/A/dup.txt`. -/
def oneDupBox : BoxData :=
  buildBox (strOf "D:") 0 [⟨11, strOf "dup.txt", some 1⟩] [⟨1, strOf "A", some 0⟩]

/-- A hierarchy built from a raw file whose backend parent field is absent
(`parent_id = None`). -/
def noParentBox : BoxData :=
  buildBox (strOf "D:") 0 [⟨3, strOf "x", none⟩] []

/-- A hierarchy whose single file is parented to folder `g`, itself orphaned
(its parent id 99 matches nothing). -/
def orphanParentBox : BoxData :=
  buildBox (strOf "D:") 0 [⟨3, strOf "x", some 5⟩] [⟨5, strOf "g", some 99⟩]

/-- The 3-level synthetic tree root → folder `A` → file `x.txt`. -/
def threeLevelBox : BoxData :=
  buildBox (strOf "D:") 0 [⟨2, strOf "x.txt", some 1⟩] [⟨1, strOf "A", some 0⟩]

/-! ## Helper lemmas -/

theorem foldl_preserve {α β : Type _} (P : β → Prop) (f : β → α → β)
    (h : ∀ b a, P b → P (f b a)) : ∀ (l : List α) (b : β), P b → P (l.foldl f b) := by
  intro l
  induction l with
  | nil => intro b hb; simpa using hb
  | cons a l ih =>
    intro b hb
    rw [List.foldl_cons]
    exact ih _ (h b a hb)

theorem setParentAt_length (st : List BoxObj) (k p : Nat) :
    (setParentAt st k p).length = st.length := by
  unfold setParentAt
  cases st[k]? <;> cases st[p]? <;> simp

theorem setParentAt_statics (st : List BoxObj) (k p j : Nat) :
    ((setParentAt st k p)[j]?).map statics = (st[j]?).map statics := by
  unfold setParentAt
  cases hk : st[k]? with
  | none => rfl
  | some child =>
    cases hp : st[p]? with
    | none => rfl
    | some par =>
      rw [List.getElem?_set]
      by_cases h : k = j
      · subst h
        have hlt : k < st.length := (List.getElem?_eq_some.mp hk).1
        simp [hlt, hk, statics]
      · simp [h]

/-- Any predicate preserved by every `set_parent` step (on a matching child)
is preserved by the whole `_map_child_folders` recursion. -/
theorem mapChildFolders_preserve (P : List BoxObj → Prop)
    (hset : ∀ st k p child par, P st → st[k]? = some child → st[p]? = some par →
      child.parent_id = some par.id → P (setParentAt st k p)) :
    ∀ fuel p st, P st → P (mapChildFolders fuel p st) := by
  intro fuel
  induction fuel with
  | zero => intro p st h; simpa [mapChildFolders] using h
  | succ fuel ih =>
    intro p st h
    show P ((List.range st.length).foldl _ st)
    apply foldl_preserve _ _ _ _ _ h
    intro acc k hacc
    cases hk : acc[k]? with
    | none => simpa [hk] using hacc
    | some child =>
      cases hp : acc[p]? with
      | none => simpa [hk, hp] using hacc
      | some par =>
        by_cases hc : child.parent_id = some par.id
        · simp only [hk, hp, hc, if_pos]
          exact ih _ _ (hset acc k p child par hacc hk hp hc)
        · simpa [hk, hp, hc] using hacc

theorem mapChildFolders_statics (fuel p : Nat) (st : List BoxObj) (j : Nat) :
    ((mapChildFolders fuel p st)[j]?).map statics = (st[j]?).map statics := by
  have := mapChildFolders_preserve
    (fun st2 => ∀ i : Nat, (st2[i]?).map statics = (st[i]?).map statics)
    (fun st2 k q child par hP hk hp hc i =>
      (setParentAt_statics st2 k q i).trans (hP i))
    fuel p st (fun i => rfl)
  exact this j

/-- An object whose `parent_id` matches no object's id in the list is left
completely untouched by `_map_child_folders`. -/
theorem mapChildFolders_untouched (st0 : List BoxObj) (k : Nat) (c : BoxObj)
    (hk : st0[k]? = some c)
    (hx : ∀ (j : Nat) (par : BoxObj), st0[j]? = some par → c.parent_id ≠ some par.id) :
    ∀ fuel p, (mapChildFolders fuel p st0)[k]? = some c := by
  intro fuel p
  have main := mapChildFolders_preserve
    (fun st => (∀ i : Nat, (st[i]?).map statics = (st0[i]?).map statics) ∧ st[k]? = some c)
    ?hset fuel p st0 ⟨fun i => rfl, hk⟩
  · exact main.2
  case hset =>
    intro st k' p' child par hP hk' hp' hc
    refine ⟨fun i => (setParentAt_statics st k' p' i).trans (hP.1 i), ?_⟩
    unfold setParentAt
    rw [hk', hp', List.getElem?_set]
    by_cases hkk : k' = k
    · exfalso
      subst hkk
      have hcc : child = c := by
        rw [hP.2] at hk'
        exact (Option.some.inj hk').symm
      have hps := hP.1 p'
      rw [hp'] at hps
      cases hp0 : st0[p']? with
      | none => rw [hp0] at hps; simp at hps
      | some par0 =>
        rw [hp0] at hps
        have hid : par.id = par0.id := by
          have := Option.some.inj hps
          simpa [statics] using congrArg Prod.fst this
        exact hx p' par0 hp0 (by rw [← hcc, hc, hid])
    · simp [hkk, hP.2]

theorem findFolderIdx_none (x : Nat) :
    ∀ fs : List BoxObj, (∀ fol ∈ fs, fol.id ≠ x) → findFolderIdx (some x) fs = none := by
  intro fs
  induction fs with
  | nil => intro _; rfl
  | cons fol rest ih =>
    intro h
    unfold findFolderIdx
    have hne : ¬ (some x = some fol.id) := by
      intro hco
      exact h fol (List.mem_cons_self fol rest) ((Option.some.inj hco).symm)
    rw [if_neg hne, ih (fun f hf => h f (List.mem_cons_of_mem _ hf))]
    rfl

theorem findFolderIdx_some (pid : Option Nat) :
    ∀ (fs : List BoxObj) (j : Nat), findFolderIdx pid fs = some j →
      ∃ fol, fs[j]? = some fol ∧ pid = some fol.id := by
  intro fs
  induction fs with
  | nil => intro j h; simp [findFolderIdx] at h
  | cons fol rest ih =>
    intro j h
    unfold findFolderIdx at h
    by_cases hc : pid = some fol.id
    · rw [if_pos hc] at h
      have : j = 0 := (Option.some.inj h).symm
      subst this
      exact ⟨fol, by simp, hc⟩
    · rw [if_neg hc] at h
      cases hr : findFolderIdx pid rest with
      | none => rw [hr] at h; simp at h
      | some j0 =>
        rw [hr] at h
        have hj : j = j0 + 1 := by simpa using h.symm
        subst hj
        obtain ⟨fol0, hf, hp⟩ := ih j0 hr
        exact ⟨fol0, by simpa using hf, hp⟩

theorem getFileViaPath_path (fs : List BoxObj) (q : Str) (o : BoxObj)
    (h : getFileViaPath fs q = some o) : o.path = some q := by
  unfold getFileViaPath at h
  have := List.find?_some h
  simpa using this

theorem getFileViaPath_isSome_of_mem (fs : List BoxObj) (q : Str) (f : BoxObj)
    (hmem : f ∈ fs) (hq : f.path = some q) : (getFileViaPath fs q).isSome = true := by
  unfold getFileViaPath
  rw [List.find?_isSome]
  exact ⟨f, hmem, by simp [hq]⟩

/-- Every member of a `_map_child_folders` result shares its immutable fields
with a member of the input list at the same position. -/
theorem mem_mapChildFolders_id (fuel p : Nat) (st : List BoxObj) (fol : BoxObj)
    (h : fol ∈ mapChildFolders fuel p st) :
    ∃ (j : Nat) (fol0 : BoxObj), st[j]? = some fol0 ∧ fol.id = fol0.id := by
  obtain ⟨j, hj⟩ := List.mem_iff_getElem?.mp h
  have hs := mapChildFolders_statics fuel p st j
  rw [hj] at hs
  cases h0 : st[j]? with
  | none => rw [h0] at hs; simp at hs
  | some fol0 =>
    rw [h0] at hs
    refine ⟨j, fol0, h0, ?_⟩
    have := Option.some.inj hs
    simpa [statics] using congrArg Prod.fst this

/-- The ids occurring in the folder list `Box.__init__` builds before the
parent-mapping pass: the root's id and the raw folders' ids. -/
theorem folders0_ids (pfx : Str) (rootId : Nat) (rawFolders : List RawBox) :
    ∀ (j : Nat) (par : BoxObj),
      ((mkBoxObject rootId pfx none) ::
        rawFolders.map (fun r => mkBoxObject r.id r.name r.parent_id))[j]? = some par →
      par.id = rootId ∨ ∃ r ∈ rawFolders, par.id = r.id := by
  intro j par h
  cases j with
  | zero =>
    left
    have : par = mkBoxObject rootId pfx none := by simpa using h.symm
    rw [this]; rfl
  | succ j0 =>
    right
    rw [List.getElem?_cons_succ, List.getElem?_map] at h
    cases h0 : rawFolders[j0]? with
    | none => rw [h0] at h; simp at h
    | some r =>
      rw [h0] at h
      have hpar : par = mkBoxObject r.id r.name r.parent_id := by simpa using h.symm
      exact ⟨r, List.mem_iff_getElem?.mpr ⟨j0, h0⟩, by simp [hpar, mkBoxObject]⟩

theorem truthyPath_some (op : Option Str) (q : Str) (h : truthyPath op = some q) :
    op = some q := by
  cases op with
  | none => simp [truthyPath] at h
  | some p =>
    simp only [truthyPath] at h
    by_cases hp : p = []
    · rw [if_pos hp] at h; simp at h
    · rw [if_neg hp] at h; rw [h]

theorem dupStep_inv (box : List BoxObj) (p : Str) (st : MigState)
    (hsome : (getFileViaPath box p).isSome = true)
    (h : lookupOkInv box st) : lookupOkInv box (dupStep p st) := by
  obtain ⟨h1, h2, h3, h4⟩ := h
  unfold dupStep
  by_cases hm : p ∈ st.boxMissed
  · rw [if_pos hm]
    exact ⟨h1, h2, fun q hq => h3 q ((List.erase_sublist p st.boxMissed).mem hq), h4⟩
  · rw [if_neg hm]
    refine ⟨h1, h2, h3, fun q hq => ?_⟩
    rcases List.mem_append.mp hq with hq | hq
    · exact h4 q hq
    · have hqp : q = p := by simpa using hq
      rw [hqp]
      exact hsome

theorem migrateStep_inv (box : List BoxObj) (env : SinkEnv) (t : Bool)
    (st : MigState) (df : DriveFile) (h : lookupOkInv box st) :
    lookupOkInv box (outState (migrateStep box env t st df)) := by
  cases hb : pyTruthyStr df.path with
  | false =>
    have heq : migrateStep box env t st df = .ok st := by
      simp [migrateStep, hb]
    rw [heq]
    exact h
  | true =>
    cases hp : df.path with
    | none => rw [hp] at hb; simp [pyTruthyStr] at hb
    | some p =>
      rw [hp] at hb
      cases hl : getFileViaPath box p with
      | none =>
        have heq : migrateStep box env t st df =
            .ok { st with driveMissed := st.driveMissed ++ [p] } := by
          simp only [migrateStep, hp, hb, hl, Bool.not_true, Bool.false_eq_true, if_false]
        rw [heq]
        obtain ⟨h1, h2, h3, h4⟩ := h
        refine ⟨fun q hq => ?_, h2, h3, h4⟩
        rcases List.mem_append.mp hq with hq | hq
        · exact h1 q hq
        · have hqp : q = p := by simpa using hq
          rw [hqp, hl]
      | some bf =>
        have hsome : (getFileViaPath box p).isSome = true := by rw [hl]; rfl
        have hmat : ∀ (l : List Str), (∀ q ∈ l, (getFileViaPath box q).isSome = true) →
            ∀ q ∈ l ++ [p], (getFileViaPath box q).isSome = true := by
          intro l hl2 q hq
          rcases List.mem_append.mp hq with hq | hq
          · exact hl2 q hq
          · have hqp : q = p := by simpa using hq
            rw [hqp]; exact hsome
        cases t with
        | true =>
          have heq : migrateStep box env true st df =
              .ok (dupStep p { st with matched := st.matched ++ [p] }) := by
            simp only [migrateStep, hp, hb, hl, Bool.not_true, Bool.false_eq_true, if_false,
              if_true]
          rw [heq]
          exact dupStep_inv box p _ hsome ⟨h.1, hmat st.matched h.2.1, h.2.2.1, h.2.2.2⟩
        | false =>
          cases ha : apply_metadata env st.store bf.id with
          | error e =>
            have heq : migrateStep box env false st df =
                .error { st with sinkCalls := st.sinkCalls ++ [bf.id] } := by
              simp only [migrateStep, hp, hb, hl, Bool.not_true, Bool.false_eq_true, if_false,
                Bool.false_eq_true]
              rw [ha]
            rw [heq]
            exact ⟨h.1, h.2.1, h.2.2.1, h.2.2.2⟩
          | ok pr =>
            obtain ⟨ret, store2⟩ := pr
            cases hr : pyTruthyOpt ret with
            | true =>
              have heq : migrateStep box env false st df =
                  .ok (dupStep p { st with matched := st.matched ++ [p], store := store2, sinkCalls := st.sinkCalls ++ [bf.id] }) := by
                simp only [migrateStep, hp, hb, hl, Bool.not_true, Bool.false_eq_true, if_false]
                rw [ha]
                simp only [hr, if_true]
              rw [heq]
              exact dupStep_inv box p _ hsome ⟨h.1, hmat st.matched h.2.1, h.2.2.1, h.2.2.2⟩
            | false =>
              have heq : migrateStep box env false st df =
                  .ok (dupStep p { st with existing := st.existing ++ [p], store := store2, sinkCalls := st.sinkCalls ++ [bf.id] }) := by
                simp only [migrateStep, hp, hb, hl, Bool.not_true, Bool.false_eq_true, if_false]
                rw [ha]
                simp only [hr, Bool.false_eq_true, if_false]
              rw [heq]
              exact dupStep_inv box p _ hsome ⟨h.1, h.2.1, h.2.2.1, h.2.2.2⟩

theorem migrateLoop_inv (box : List BoxObj) (env : SinkEnv) (t : Bool) :
    ∀ (dfs : List DriveFile) (st : MigState), lookupOkInv box st →
      lookupOkInv box (outState (migrateLoop box env t dfs st)) := by
  intro dfs
  induction dfs with
  | nil => intro st h; simpa [migrateLoop, outState] using h
  | cons df dfs ih =>
    intro st h
    have hstep := migrateStep_inv box env t st df h
    unfold migrateLoop
    cases hs : migrateStep box env t st df with
    | error e =>
      rw [hs] at hstep
      simpa [outState] using hstep
    | ok st2 =>
      rw [hs] at hstep
      simp only [outState] at hstep
      exact ih st2 hstep

theorem migrate_metadata_inv (box : List BoxObj) (drive : List DriveFile)
    (env : SinkEnv) (store0 : Nat → Bool) (t : Bool) :
    lookupOkInv box (outState (migrate_metadata box drive env store0 t)) := by
  apply migrateLoop_inv
  refine ⟨?_, ?_, ?_, ?_⟩ <;> intro q hq
  · exact absurd hq (List.not_mem_nil q)
  · exact absurd hq (List.not_mem_nil q)
  · rw [List.mem_filterMap] at hq
    obtain ⟨f, hf, hfq⟩ := hq
    exact getFileViaPath_isSome_of_mem box q f hf (truthyPath_some _ _ hfq)
  · exact absurd hq (List.not_mem_nil q)

theorem apply_metadata_benign (g store : Nat → Bool) (i : Nat) :
    ∃ s : Nat → Bool, apply_metadata (benignEnv g) store i = .ok (none, s) := by
  unfold apply_metadata benignEnv
  by_cases hg : g i
  · refine ⟨fun n => if n = i then true else store n, ?_⟩
    simp [hg]
  · by_cases hs : store i
    · refine ⟨store, ?_⟩
      simp [hg, hs]
    · refine ⟨fun n => if n = i then true else store n, ?_⟩
      simp [hg, hs]

theorem migrateStep_benign_ok (box : List BoxObj) (g : Nat → Bool) (t : Bool)
    (st : MigState) (df : DriveFile) :
    ∃ st2, migrateStep box (benignEnv g) t st df = .ok st2 := by
  cases hb : pyTruthyStr df.path with
  | false => exact ⟨st, by simp [migrateStep, hb]⟩
  | true =>
    cases hp : df.path with
    | none => rw [hp] at hb; simp [pyTruthyStr] at hb
    | some p =>
      rw [hp] at hb
      cases hl : getFileViaPath box p with
      | none =>
        refine ⟨{ st with driveMissed := st.driveMissed ++ [p] }, ?_⟩
        simp only [migrateStep, hp, hb, hl, Bool.not_true, Bool.false_eq_true, if_false]
      | some bf =>
        cases t with
        | true =>
          refine ⟨dupStep p { st with matched := st.matched ++ [p] }, ?_⟩
          simp only [migrateStep, hp, hb, hl, Bool.not_true, Bool.false_eq_true, if_false,
            if_true]
        | false =>
          obtain ⟨s, hs⟩ := apply_metadata_benign g st.store bf.id
          refine ⟨dupStep p { st with existing := st.existing ++ [p], store := s, sinkCalls := st.sinkCalls ++ [bf.id] }, ?_⟩
          simp only [migrateStep, hp, hb, hl, Bool.not_true, Bool.false_eq_true, if_false]
          rw [hs]
          simp [pyTruthyOpt]

theorem migrateLoop_benign_ok (box : List BoxObj) (g : Nat → Bool) (t : Bool) :
    ∀ (dfs : List DriveFile) (st : MigState),
      ∃ st2, migrateLoop box (benignEnv g) t dfs st = .ok st2 := by
  intro dfs
  induction dfs with
  | nil => intro st; exact ⟨st, rfl⟩
  | cons df dfs ih =>
    intro st
    obtain ⟨st2, hs⟩ := migrateStep_benign_ok box g t st df
    obtain ⟨st3, hl⟩ := ih st2
    exact ⟨st3, by simp only [migrateLoop, hs, hl]⟩

theorem dupStep_rel (p : Str) (stT stR : MigState) (h : dryRealRel stT stR) :
    dryRealRel (dupStep p stT) (dupStep p stR) := by
  obtain ⟨r1, r2, r3, r4, r5⟩ := h
  have hmT : p ∈ stT.boxMissed ↔ p ∈ stR.boxMissed := by rw [r2]
  unfold dupStep
  by_cases hm : p ∈ stR.boxMissed
  · rw [if_pos (hmT.mpr hm), if_pos hm]
    exact ⟨r1, by simp only [r2], r3, r4, r5⟩
  · rw [if_neg (fun hc => hm (hmT.mp hc)), if_neg hm]
    exact ⟨r1, r2, by simp only [r3], r4, r5⟩

theorem migrateStep_dry_real (box : List BoxObj) (g : Nat → Bool)
    (stT stR : MigState) (df : DriveFile) (hrel : dryRealRel stT stR) :
    ∃ stR2, migrateStep box (benignEnv g) false stR df = .ok stR2 ∧
    ∃ stT2, migrateStep box (benignEnv g) true stT df = .ok stT2 ∧ dryRealRel stT2 stR2 := by
  cases hb : pyTruthyStr df.path with
  | false =>
    exact ⟨stR, by simp [migrateStep, hb], stT, by simp [migrateStep, hb], hrel⟩
  | true =>
    cases hp : df.path with
    | none => rw [hp] at hb; simp [pyTruthyStr] at hb
    | some p =>
      rw [hp] at hb
      obtain ⟨r1, r2, r3, r4, r5⟩ := hrel
      cases hl : getFileViaPath box p with
      | none =>
        refine ⟨{ stR with driveMissed := stR.driveMissed ++ [p] }, ?_,
          { stT with driveMissed := stT.driveMissed ++ [p] }, ?_, ?_⟩
        · simp only [migrateStep, hp, hb, hl, Bool.not_true, Bool.false_eq_true, if_false]
        · simp only [migrateStep, hp, hb, hl, Bool.not_true, Bool.false_eq_true, if_false]
        · exact ⟨by simp only [r1], r2, r3, r4, r5⟩
      | some bf =>
        obtain ⟨s, hs⟩ := apply_metadata_benign g stR.store bf.id
        refine ⟨dupStep p { stR with existing := stR.existing ++ [p], store := s, sinkCalls := stR.sinkCalls ++ [bf.id] }, ?_,
          dupStep p { stT with matched := stT.matched ++ [p] }, ?_, ?_⟩
        · simp only [migrateStep, hp, hb, hl, Bool.not_true, Bool.false_eq_true, if_false]
          rw [hs]
          simp [pyTruthyOpt]
        · simp only [migrateStep, hp, hb, hl, Bool.not_true, Bool.false_eq_true, if_false,
            if_true]
        · apply dupStep_rel
          refine ⟨r1, r2, r3, ?_, r5⟩
          simp only [List.length_append, List.length_cons, List.length_nil, r4]
          omega

theorem migrateLoop_dry_real (box : List BoxObj) (g : Nat → Bool) :
    ∀ (dfs : List DriveFile) (stT stR : MigState), dryRealRel stT stR →
      ∃ stR2, migrateLoop box (benignEnv g) false dfs stR = .ok stR2 ∧
      ∃ stT2, migrateLoop box (benignEnv g) true dfs stT = .ok stT2 ∧ dryRealRel stT2 stR2 := by
  intro dfs
  induction dfs with
  | nil => intro stT stR h; exact ⟨stR, rfl, stT, rfl, h⟩
  | cons df dfs ih =>
    intro stT stR h
    obtain ⟨stR2, hsR, stT2, hsT, hrel2⟩ := migrateStep_dry_real box g stT stR df h
    obtain ⟨stR3, hlR, stT3, hlT, hrel3⟩ := ih stT2 stR2 hrel2
    refine ⟨stR3, ?_, stT3, ?_, hrel3⟩
    · simp only [migrateLoop, hsR, hlR]
    · simp only [migrateLoop, hsT, hlT]

theorem walkSegs_error_iff : ∀ (segs : List Str) (cur : RemoteItem),
    walkSegs segs cur = .error () ↔
      ∃ (pre : List Str) (s : Str) (suf : List Str) (f : RemoteItem),
        segs = pre ++ s :: suf ∧ walkSegs pre cur = .ok f ∧
        findChildFolder (RemoteItem.childrenOf f) s = none := by
  intro segs
  induction segs with
  | nil =>
    intro cur
    constructor
    · intro h
      simp [walkSegs] at h
    · rintro ⟨pre, s, suf, f, habs, -, -⟩
      exact absurd habs (by simp)
  | cons seg rest ih =>
    intro cur
    constructor
    · intro h
      cases hf : findChildFolder (RemoteItem.childrenOf cur) seg with
      | none => exact ⟨[], seg, rest, cur, rfl, rfl, hf⟩
      | some nxt =>
        have h2 : walkSegs rest nxt = .error () := by
          have hh : walkSegs (seg :: rest) cur = walkSegs rest nxt := by
            simp only [walkSegs, hf]
          rw [← hh]
          exact h
        obtain ⟨pre, s, suf, f, he, hw, hn⟩ := (ih nxt).mp h2
        refine ⟨seg :: pre, s, suf, f, by rw [he]; rfl, ?_, hn⟩
        simp only [walkSegs, hf]
        exact hw
    · rintro ⟨pre, s, suf, f, he, hw, hn⟩
      cases pre with
      | nil =>
        have hs1 : seg = s ∧ rest = suf := by simpa using he
        have hfc : cur = f := by simpa [walkSegs] using hw
        rw [← hfc] at hn
        rw [hs1.1]
        simp only [walkSegs, hn]
      | cons p0 pre2 =>
        have hs1 : seg = p0 ∧ rest = pre2 ++ s :: suf := by simpa using he
        cases hf : findChildFolder (RemoteItem.childrenOf cur) p0 with
        | none =>
          rw [show walkSegs (p0 :: pre2) cur = .error () by simp only [walkSegs, hf]] at hw
          exact absurd hw (by simp)
        | some nxt =>
          have hw2 : walkSegs pre2 nxt = .ok f := by
            rw [show walkSegs (p0 :: pre2) cur = walkSegs pre2 nxt by
              simp only [walkSegs, hf]] at hw
            exact hw
          have : walkSegs rest nxt = .error () :=
            (ih nxt).mpr ⟨pre2, s, suf, f, hs1.2, hw2, hn⟩
          rw [hs1.1]
          simp only [walkSegs, hf]
          exact this

theorem buildBox_folders_eq (pfx : Str) (rootId : Nat) (rawFiles rawFolders : List RawBox) :
    (buildBox pfx rootId rawFiles rawFolders).folders =
      mapChildFolders
        (((mkBoxObject rootId pfx none) ::
          rawFolders.map (fun r => mkBoxObject r.id r.name r.parent_id)).length + 1) 0
        ((mkBoxObject rootId pfx none) ::
          rawFolders.map (fun r => mkBoxObject r.id r.name r.parent_id)) := rfl

theorem buildBox_files_eq (pfx : Str) (rootId : Nat) (rawFiles rawFolders : List RawBox) :
    (buildBox pfx rootId rawFiles rawFolders).files =
      (rawFiles.map (fun r => mkBoxObject r.id r.name r.parent_id)).map
        (linkFile (buildBox pfx rootId rawFiles rawFolders).folders) := rfl

/-! ## Claims -/

/-- Claim C5, counterexample.  The claim asserts that normalization is
idempotent; on the raw name `002f0 - Modify02f` one application yields
`/002f` (removing the interior `' - Modify'` re-creates an `002f`), and a
second application yields `//`, so applying the normalization twice differs
from applying it once. -/
theorem c5_normalization_not_idempotent :
    normalizeBoxName (normalizeBoxName (strOf "002f0 - Modify02f")) ≠
      normalizeBoxName (strOf "002f0 - Modify02f") := by decide

/-- Claim C5, amended.  When a raw name contains `002f`, `BoxObject.__init__`
replaces every occurrence of `002f` by `/` and removes every occurrence of
`' - Modify'` (not only a trailing suffix: `a002fb - Modify c` becomes
`a/b c`); the example `a002fb - Modify` normalizes to `a/b`; and the
normalization is idempotent precisely on those inputs whose normal form no
longer contains `002f`. -/
theorem c5_normalization_amended :
    (∀ s : Str, containsPat pat002f (normalizeBoxName s) = false →
      normalizeBoxName (normalizeBoxName s) = normalizeBoxName s)
    ∧ normalizeBoxName (strOf "a002fb - Modify") = strOf "a/b"
    ∧ normalizeBoxName (strOf "a002fb - Modify c") = strOf "a/b c" := by
  have hid : ∀ t : Str, containsPat pat002f t = false → normalizeBoxName t = t := by
    intro t ht
    unfold normalizeBoxName
    rw [ht]
    simp
  exact ⟨fun s h => hid _ h, by decide, by decide⟩

/-- Claim C5, witness for the amended idempotence: the name `plain.txt`
normalizes to itself and renormalizing is stable. -/
theorem c5_normalization_amended_witness :
    containsPat pat002f (normalizeBoxName (strOf "plain.txt")) = false ∧
    normalizeBoxName (normalizeBoxName (strOf "plain.txt")) =
      normalizeBoxName (strOf "plain.txt") :=
  ⟨by decide, c5_normalization_amended.1 (strOf "plain.txt") (by decide)⟩

/-- Claim C6, counterexample.  The claim asserts that a document-typed file
named `Report` gets `.docx` appended; `_build_drive` passes `result['name']`
to the `File` node verbatim, so the node is named `Report`, not
`Report.docx` — no extension repair exists in the code. -/
theorem c6_no_extension_repair :
    (driveFileOfResult
      ⟨1, strOf "Report", strOf "application/vnd.google-apps.document"⟩).name
      = strOf "Report" ∧
    (driveFileOfResult
      ⟨1, strOf "Report", strOf "application/vnd.google-apps.document"⟩).name
      ≠ strOf "Report.docx" :=
  ⟨rfl, by decide⟩

/-- Claim C6, amended.  The built node's name always equals the raw listing
name, whatever the mime type; the mime type is stored on the node but never
used to alter the name. -/
theorem c6_name_passthrough_amended :
    ∀ r : DriveRawResult, (driveFileOfResult r).name = r.name ∧
      (driveFileOfResult r).mime_type = r.mimeType ∧
      (driveFileOfResult r).path = none :=
  fun _ => ⟨rfl, rfl, rfl⟩

/-- Claim C7, code-bug evaluation.  `apply_metadata` has no `return`
statement, so it returns `None`; on a fresh store the reconciler therefore
logs the single matched file under `existing_metadata_files` and not under
`matched_files`, even though the run did write the metadata (the store for
Box id 1 flips to `true`).  The caller's
`if box.apply_metadata(...)`/`else` branch plainly expects a truthy result
for a fresh write, so no tri-state `written | already_present | failed`
distinction ever reaches the caller. -/
theorem c7_fresh_write_recorded_as_existing :
    (outState (migrate_metadata oneBox.files [⟨10, some (strOf "D:/a.txt")⟩] envOkAll
        (fun _ => false) false)).existing = [strOf "D:/a.txt"] ∧
    (outState (migrate_metadata oneBox.files [⟨10, some (strOf "D:/a.txt")⟩] envOkAll
        (fun _ => false) false)).matched = [] ∧
    (outState (migrate_metadata oneBox.files [⟨10, some (strOf "D:/a.txt")⟩] envOkAll
        (fun _ => false) false)).store 1 = true ∧
    (outState (migrate_metadata oneBox.files [⟨10, some (strOf "D:/a.txt")⟩] envOkAll
        (fun _ => false) false)).sinkCalls = [1] :=
  ⟨rfl, rfl, rfl, rfl⟩

/-- Claim C10, counterexample.  The claim says a parentless `BoxObject` gets
its *normalized* name as path; the constructor stores the raw parameter
(`self.path = name` runs after `self.name` was rewritten, but reads the
unchanged local `name`), so for the raw name `a002fb - Modify` the node's
name is `a/b` while its path is the raw string. -/
theorem c10_path_is_raw_not_normalized :
    (mkBoxObject 7 (strOf "a002fb - Modify") none).path ≠
      some ((mkBoxObject 7 (strOf "a002fb - Modify") none).name) ∧
    (mkBoxObject 7 (strOf "a002fb - Modify") none).path =
      some (strOf "a002fb - Modify") ∧
    (mkBoxObject 7 (strOf "a002fb - Modify") none).name = strOf "a/b" := by
  refine ⟨by decide, rfl, by decide⟩

/-- Claim C10, amended.  Every `BoxObject` constructed with `parent_id = None`
receives, at construction time, a path equal to its *raw* name (which equals
the normalized name exactly when no `002f` rewriting applies), has no parent,
and that bare-name path participates in `get_file_via_path` lookups instead
of being excluded as an orphan. -/
theorem c10_parentless_raw_path_amended :
    ∀ (i : Nat) (nm : Str),
      (mkBoxObject i nm none).path = some nm ∧
      (mkBoxObject i nm none).parent = none ∧
      getFileViaPath [mkBoxObject i nm none] nm = some (mkBoxObject i nm none) := by
  intro i nm
  refine ⟨rfl, rfl, ?_⟩
  simp [getFileViaPath, List.find?, mkBoxObject]

/-- Claim C1, counterexample.  On a fresh store with one matching file the
dry run reports `matched` count 1 while the real run reports 0 (the match
lands in `existing_metadata_files`, because `apply_metadata` returns `None`),
so the matched counts of the two runs differ. -/
theorem c1_matched_counts_differ :
    (outState (migrate_metadata oneBox.files [⟨10, some (strOf "D:/a.txt")⟩] envOkAll
        (fun _ => false) true)).matched.length = 1 ∧
    (outState (migrate_metadata oneBox.files [⟨10, some (strOf "D:/a.txt")⟩] envOkAll
        (fun _ => false) false)).matched.length = 0 :=
  ⟨rfl, rfl⟩

/-- Claim C1, amended.  Over any inputs, and any Sink whose `create` calls
succeed, the dry run and the real run produce identical source-missed,
destination-missed and duplicate lists; the dry run's `matched` count equals
the real run's `matched` count plus its already-present (`existing`) count
(the real `matched` list is in fact always empty because `apply_metadata`
returns `None`); and the dry run never invokes the Sink. -/
theorem c1_dry_run_vs_real_run_amended :
    ∀ (box : List BoxObj) (drive : List DriveFile) (g : Nat → Bool) (store0 : Nat → Bool),
      ∃ stR, migrate_metadata box drive (benignEnv g) store0 false = .ok stR ∧
      ∃ stT, migrate_metadata box drive (benignEnv g) store0 true = .ok stT ∧
        stT.driveMissed = stR.driveMissed ∧
        stT.boxMissed = stR.boxMissed ∧
        stT.dups = stR.dups ∧
        stT.matched.length = stR.matched.length + stR.existing.length ∧
        stT.sinkCalls = [] := by
  intro box drive g store0
  obtain ⟨stR, hR, stT, hT, hrel⟩ := migrateLoop_dry_real box g drive
    { matched := [], existing := [], driveMissed := [],
      boxMissed := box.filterMap (fun f => truthyPath f.path),
      dups := [], store := store0, sinkCalls := [] }
    { matched := [], existing := [], driveMissed := [],
      boxMissed := box.filterMap (fun f => truthyPath f.path),
      dups := [], store := store0, sinkCalls := [] }
    ⟨rfl, rfl, rfl, rfl, rfl⟩
  exact ⟨stR, hR, stT, hT, hrel.1, hrel.2.1, hrel.2.2.1, hrel.2.2.2.1, hrel.2.2.2.2⟩

/-- Claim C2, counterexample.  For the destination hierarchy with two
distinct nodes at `D:/A/dup.txt` and a source with exactly one file at that
path, the reconciler records no duplicate at all (the claim demands exactly
one): the single source file matches once, removes one of the two copies
from `box_missed_files`, and the other copy stays there — so the path also
sits in both `matched` and the destination-missed list, refuting pairwise
disjointness. -/
theorem c2_dest_duplicate_yields_no_dup_entry :
    (outState (migrate_metadata dupBox.files [⟨10, some (strOf "D:/A/dup.txt")⟩] envOkAll
        (fun _ => false) true)).dups = [] ∧
    (outState (migrate_metadata dupBox.files [⟨10, some (strOf "D:/A/dup.txt")⟩] envOkAll
        (fun _ => false) true)).matched = [strOf "D:/A/dup.txt"] ∧
    (outState (migrate_metadata dupBox.files [⟨10, some (strOf "D:/A/dup.txt")⟩] envOkAll
        (fun _ => false) true)).boxMissed = [strOf "D:/A/dup.txt"] :=
  ⟨rfl, rfl, rfl⟩

/-- Claim C2, amended.  Destination-side duplicates do not produce
`duplicate_files` entries: the two-destination/one-source scenario yields one
`matched` entry, no duplicate entry, and the path remains once in the
destination-missed list (so `matched` and destination-missed may intersect).
A duplicate entry arises when source files at a path outnumber destination
files there: one destination copy against two source files yields `matched`
twice and one duplicate.  The source-missed list, however, is disjoint from
`matched`, destination-missed and duplicates on every run. -/
theorem c2_duplicates_and_disjointness_amended :
    ((outState (migrate_metadata dupBox.files [⟨10, some (strOf "D:/A/dup.txt")⟩] envOkAll
        (fun _ => false) true)).dups = [] ∧
     (outState (migrate_metadata dupBox.files [⟨10, some (strOf "D:/A/dup.txt")⟩] envOkAll
        (fun _ => false) true)).matched = [strOf "D:/A/dup.txt"] ∧
     (outState (migrate_metadata dupBox.files [⟨10, some (strOf "D:/A/dup.txt")⟩] envOkAll
        (fun _ => false) true)).boxMissed = [strOf "D:/A/dup.txt"]) ∧
    ((outState (migrate_metadata oneDupBox.files
        [⟨10, some (strOf "D:/A/dup.txt")⟩, ⟨20, some (strOf "D:/A/dup.txt")⟩] envOkAll
        (fun _ => false) true)).dups = [strOf "D:/A/dup.txt"] ∧
     (outState (migrate_metadata oneDupBox.files
        [⟨10, some (strOf "D:/A/dup.txt")⟩, ⟨20, some (strOf "D:/A/dup.txt")⟩] envOkAll
        (fun _ => false) true)).matched =
          [strOf "D:/A/dup.txt", strOf "D:/A/dup.txt"]) ∧
    (∀ (box : List BoxObj) (drive : List DriveFile) (env : SinkEnv)
        (store0 : Nat → Bool) (t : Bool) (q : Str),
      q ∈ (outState (migrate_metadata box drive env store0 t)).driveMissed →
        q ∉ (outState (migrate_metadata box drive env store0 t)).matched ∧
        q ∉ (outState (migrate_metadata box drive env store0 t)).boxMissed ∧
        q ∉ (outState (migrate_metadata box drive env store0 t)).dups) := by
  refine ⟨⟨rfl, rfl, rfl⟩, ⟨rfl, rfl⟩, ?_⟩
  intro box drive env store0 t q hq
  obtain ⟨h1, h2, h3, h4⟩ := migrate_metadata_inv box drive env store0 t
  have hnone := h1 q hq
  refine ⟨fun hc => ?_, fun hc => ?_, fun hc => ?_⟩
  · have := h2 q hc; rw [hnone] at this; simp at this
  · have := h3 q hc; rw [hnone] at this; simp at this
  · have := h4 q hc; rw [hnone] at this; simp at this

/-- Claim C2, witness for the disjointness part: on a run whose only source
file misses, the missed path is in `drive_missed_files` and in none of the
other three lists. -/
theorem c2_duplicates_and_disjointness_amended_witness :
    strOf "D:/z.txt" ∈ (outState (migrate_metadata [] [⟨1, some (strOf "D:/z.txt")⟩]
      envOkAll (fun _ => false) true)).driveMissed ∧
    (strOf "D:/z.txt" ∉ (outState (migrate_metadata [] [⟨1, some (strOf "D:/z.txt")⟩]
      envOkAll (fun _ => false) true)).matched ∧
     strOf "D:/z.txt" ∉ (outState (migrate_metadata [] [⟨1, some (strOf "D:/z.txt")⟩]
      envOkAll (fun _ => false) true)).boxMissed ∧
     strOf "D:/z.txt" ∉ (outState (migrate_metadata [] [⟨1, some (strOf "D:/z.txt")⟩]
      envOkAll (fun _ => false) true)).dups) :=
  ⟨by decide,
   c2_duplicates_and_disjointness_amended.2.2 [] [⟨1, some (strOf "D:/z.txt")⟩]
     envOkAll (fun _ => false) true (strOf "D:/z.txt") (by decide)⟩

/-- Claim C8, counterexample.  When the Sink's `create` raises for the first
matched file, nothing in `migrate_metadata` catches the exception: the run
aborts, the first file is recorded nowhere, and the remaining source file is
never classified (both destination paths stay in `box_missed_files`, and
exactly one Sink invocation happened). -/
theorem c8_sink_failure_aborts_walk :
    isErrorRun (migrate_metadata twoBox.files
      [⟨10, some (strOf "D:/a.txt")⟩, ⟨11, some (strOf "D:/b.txt")⟩]
      envCreateFails1 (fun _ => false) false) = true ∧
    (outState (migrate_metadata twoBox.files
      [⟨10, some (strOf "D:/a.txt")⟩, ⟨11, some (strOf "D:/b.txt")⟩]
      envCreateFails1 (fun _ => false) false)).matched = [] ∧
    (outState (migrate_metadata twoBox.files
      [⟨10, some (strOf "D:/a.txt")⟩, ⟨11, some (strOf "D:/b.txt")⟩]
      envCreateFails1 (fun _ => false) false)).existing = [] ∧
    (outState (migrate_metadata twoBox.files
      [⟨10, some (strOf "D:/a.txt")⟩, ⟨11, some (strOf "D:/b.txt")⟩]
      envCreateFails1 (fun _ => false) false)).driveMissed = [] ∧
    (outState (migrate_metadata twoBox.files
      [⟨10, some (strOf "D:/a.txt")⟩, ⟨11, some (strOf "D:/b.txt")⟩]
      envCreateFails1 (fun _ => false) false)).dups = [] ∧
    (outState (migrate_metadata twoBox.files
      [⟨10, some (strOf "D:/a.txt")⟩, ⟨11, some (strOf "D:/b.txt")⟩]
      envCreateFails1 (fun _ => false) false)).boxMissed =
        [strOf "D:/a.txt", strOf "D:/b.txt"] ∧
    (outState (migrate_metadata twoBox.files
      [⟨10, some (strOf "D:/a.txt")⟩, ⟨11, some (strOf "D:/b.txt")⟩]
      envCreateFails1 (fun _ => false) false)).sinkCalls = [1] :=
  ⟨rfl, rfl, rfl, rfl, rfl, rfl, rfl⟩

/-- Claim C8, amended.  Only a `BoxAPIException` raised by the initial
`metadata.get()` is caught (inside `apply_metadata`, which then retries the
create): for every input and every `metadata.get` behaviour, if all
`metadata.create` calls succeed the walk runs to completion.  A failing
create, by contrast, propagates out of `migrate_metadata` and aborts the walk
(the counterexample), because the reconciler itself catches nothing. -/
theorem c8_failure_semantics_amended :
    ∀ (box : List BoxObj) (drive : List DriveFile) (g : Nat → Bool)
      (store0 : Nat → Bool) (t : Bool),
      ∃ st, migrate_metadata box drive (benignEnv g) store0 t = .ok st := by
  intro box drive g store0 t
  exact migrateLoop_benign_ok box g t drive _

/-- Claim C3, counterexample.  A file whose backend parent field is absent
(`parent_id = None`) has no parent chain to the root, yet it receives the
path `x` (its bare raw name) at construction and `get_file_via_path` finds
it — it is not excluded as an orphan. -/
theorem c3_parentless_file_gets_path :
    noParentBox.files.map BoxObj.path = [some (strOf "x")] ∧
    getFileViaPath noParentBox.files (strOf "x") =
      some ⟨3, strOf "x", none, none, some (strOf "x")⟩ :=
  ⟨rfl, rfl⟩

/-- Claim C3, amended.  An object carrying a parent id `x` that is neither
the root's id nor any raw folder's id is left exactly as constructed by the
build — in particular its `path` stays unset — and the path lookups only
ever return an object whose `path` equals the queried string, so pathless
objects are excluded from them.  (An object with *no* parent id, by
contrast, receives its raw name as a path: the counterexample.) -/
theorem c3_orphan_exclusion_amended :
    ∀ (pfx : Str) (rootId : Nat) (rawFiles rawFolders : List RawBox) (x : Nat),
      x ≠ rootId → (∀ r ∈ rawFolders, r.id ≠ x) →
      (∀ (k : Nat) (r : RawBox), rawFiles[k]? = some r → r.parent_id = some x →
        (buildBox pfx rootId rawFiles rawFolders).files[k]? =
          some (mkBoxObject r.id r.name (some x))) ∧
      (∀ (k : Nat) (r : RawBox), rawFolders[k]? = some r → r.parent_id = some x →
        (buildBox pfx rootId rawFiles rawFolders).folders[k + 1]? =
          some (mkBoxObject r.id r.name (some x))) ∧
      (∀ (i : Nat) (nm : Str), (mkBoxObject i nm (some x)).path = none) ∧
      (∀ (q : Str) (o : BoxObj),
        getFileViaPath (buildBox pfx rootId rawFiles rawFolders).files q = some o →
          o.path = some q) ∧
      (∀ (q : Str) (o : BoxObj),
        getFolderViaPath (buildBox pfx rootId rawFiles rawFolders).folders q = some o →
          o.path = some q) := by
  intro pfx rootId rawFiles rawFolders x hroot hfolders
  have hids : ∀ (j : Nat) (par : BoxObj),
      ((mkBoxObject rootId pfx none) ::
        rawFolders.map (fun r => mkBoxObject r.id r.name r.parent_id))[j]? = some par →
      par.id ≠ x := by
    intro j par hj
    rcases folders0_ids pfx rootId rawFolders j par hj with h | ⟨r, hr, hid⟩
    · rw [h]; exact fun hc => hroot hc.symm
    · rw [hid]; exact hfolders r hr
  have hmem1 : ∀ fol ∈ (buildBox pfx rootId rawFiles rawFolders).folders, fol.id ≠ x := by
    intro fol hm
    rw [buildBox_folders_eq] at hm
    obtain ⟨j, fol0, hj, hid⟩ := mem_mapChildFolders_id _ _ _ fol hm
    rw [hid]
    exact hids j fol0 hj
  refine ⟨?_, ?_, ?_, ?_, ?_⟩
  · intro k r hk hpid
    rw [buildBox_files_eq, List.getElem?_map, List.getElem?_map, hk]
    have hfind : findFolderIdx (some x) (buildBox pfx rootId rawFiles rawFolders).folders
        = none := findFolderIdx_none x _ hmem1
    have hlf : linkFile (buildBox pfx rootId rawFiles rawFolders).folders
        (mkBoxObject r.id r.name r.parent_id) = mkBoxObject r.id r.name r.parent_id := by
      unfold linkFile
      have hpid2 : (mkBoxObject r.id r.name r.parent_id).parent_id = some x := by
        simp [mkBoxObject, hpid]
      rw [hpid2, hfind]
    rw [hpid] at hlf
    simp [hlf, hpid]
  · intro k r hk hpid
    rw [buildBox_folders_eq]
    apply mapChildFolders_untouched
    · rw [List.getElem?_cons_succ, List.getElem?_map, hk]
      simp [hpid]
    · intro j par hj hc
      have hpid2 : (mkBoxObject r.id r.name (some x)).parent_id = some x := rfl
      rw [hpid2] at hc
      exact hids j par hj (Option.some.inj hc).symm
  · intro i nm
    rfl
  · intro q o h
    exact getFileViaPath_path _ q o h
  · intro q o h
    unfold getFolderViaPath at h
    have := List.find?_some h
    simpa using this

/-- Claim C3, witness: in the concrete hierarchy with an orphaned folder `g`
(parent id 99 matches nothing) and a file parented to the absent id 99, the
hypotheses hold and the folder keeps its construction-time state with
`path = none`. -/
theorem c3_orphan_exclusion_amended_witness :
    ((99 : Nat) ≠ 0 ∧ (∀ r ∈ [(⟨5, strOf "g", some 99⟩ : RawBox)], r.id ≠ 99) ∧
      ([(⟨5, strOf "g", some 99⟩ : RawBox)][0]? = some ⟨5, strOf "g", some 99⟩) ∧
      ((⟨5, strOf "g", some 99⟩ : RawBox).parent_id = some 99)) ∧
    (buildBox (strOf "D:") 0 [⟨3, strOf "y", some 99⟩] [⟨5, strOf "g", some 99⟩]).folders[1]?
      = some (mkBoxObject 5 (strOf "g") (some 99)) ∧
    (buildBox (strOf "D:") 0 [⟨3, strOf "y", some 99⟩] [⟨5, strOf "g", some 99⟩]).files[0]?
      = some (mkBoxObject 3 (strOf "y") (some 99)) :=
  ⟨⟨by decide, by decide, rfl, rfl⟩,
   (c3_orphan_exclusion_amended (strOf "D:") 0 [⟨3, strOf "y", some 99⟩]
      [⟨5, strOf "g", some 99⟩] 99 (by decide) (by decide)).2.1 0
      ⟨5, strOf "g", some 99⟩ rfl rfl,
   (c3_orphan_exclusion_amended (strOf "D:") 0 [⟨3, strOf "y", some 99⟩]
      [⟨5, strOf "g", some 99⟩] 99 (by decide) (by decide)).1 0
      ⟨3, strOf "y", some 99⟩ rfl rfl⟩

/-- Claim C4, counterexample.  In the hierarchy with an orphaned folder `g`
(path unset) holding the file `x`, the builder still links the file and gives
it the path `g/x`: a non-root node *has* a path although its parent has no
path at all, refuting both the claimed equation `path = parent's path + "/" +
name` and the side condition that the parent's path is already set. -/
theorem c4_orphan_parent_file_has_path :
    orphanParentBox.files.map BoxObj.path = [some (strOf "g/x")] ∧
    orphanParentBox.files.map BoxObj.parent = [some 1] ∧
    orphanParentBox.folders.map BoxObj.path = [some (strOf "D:"), none] :=
  ⟨rfl, rfl, rfl⟩

/-- Claim C4, amended.  The root object is materialized untouched with no
parent and `path` equal to the configured prefix; every file node that ends
up with a parent has `path = (parent's path if truthy, else parent's name) +
"/" + name` computed from the final folder state; every folder that received
a parent has a path of the form `s + "/" + its name`; and the 3-level
synthetic tree root → `A` → `x.txt` yields exactly the paths `D:`, `D:/A`
and `D:/A/x.txt`. -/
theorem c4_path_derivation_amended :
    ∀ (pfx : Str) (rootId : Nat) (rawFiles rawFolders : List RawBox),
      ((buildBox pfx rootId rawFiles rawFolders).folders[0]? =
          some (mkBoxObject rootId pfx none) ∧
        (mkBoxObject rootId pfx none).parent = none ∧
        (mkBoxObject rootId pfx none).path = some pfx) ∧
      (∀ (k : Nat) (f : BoxObj) (j : Nat),
        (buildBox pfx rootId rawFiles rawFolders).files[k]? = some f →
        f.parent = some j →
        ∃ fol, (buildBox pfx rootId rawFiles rawFolders).folders[j]? = some fol ∧
          f.path = some (linkedPath fol f)) ∧
      (∀ (j : Nat) (fol : BoxObj) (q : Nat),
        (buildBox pfx rootId rawFiles rawFolders).folders[j]? = some fol →
        fol.parent = some q →
        ∃ s : Str, fol.path = some (s ++ '/' :: fol.name)) ∧
      (threeLevelBox.files.map BoxObj.path = [some (strOf "D:/A/x.txt")] ∧
       threeLevelBox.folders.map BoxObj.path = [some (strOf "D:"), some (strOf "D:/A")]) := by
  intro pfx rootId rawFiles rawFolders
  refine ⟨⟨?_, rfl, rfl⟩, ?_, ?_, rfl, rfl⟩
  · rw [buildBox_folders_eq]
    apply mapChildFolders_untouched
    · simp
    · intro j par _ hc
      exact Option.noConfusion hc
  · intro k f j hfile hpar
    rw [buildBox_files_eq, List.getElem?_map, List.getElem?_map] at hfile
    cases h0 : rawFiles[k]? with
    | none => rw [h0] at hfile; simp at hfile
    | some r =>
      rw [h0] at hfile
      have hf : linkFile (buildBox pfx rootId rawFiles rawFolders).folders
          (mkBoxObject r.id r.name r.parent_id) = f := by simpa using hfile
      unfold linkFile at hf
      cases hidx : findFolderIdx (mkBoxObject r.id r.name r.parent_id).parent_id
          (buildBox pfx rootId rawFiles rawFolders).folders with
      | none =>
        simp only [hidx] at hf
        rw [← hf] at hpar
        exact absurd hpar (by simp [mkBoxObject])
      | some j2 =>
        simp only [hidx] at hf
        cases hjf : (buildBox pfx rootId rawFiles rawFolders).folders[j2]? with
        | none =>
          simp only [hjf] at hf
          rw [← hf] at hpar
          exact absurd hpar (by simp [mkBoxObject])
        | some fol =>
          simp only [hjf] at hf
          have hj2 : j2 = j := by
            rw [← hf] at hpar
            simpa using hpar
          refine ⟨fol, by rw [← hj2]; exact hjf, ?_⟩
          rw [← hf]
          rfl
  · intro j fol q hj hq
    have main := mapChildFolders_preserve
      (fun st => ∀ (j2 : Nat) (o : BoxObj), st[j2]? = some o → o.parent ≠ none →
        ∃ s : Str, o.path = some (s ++ '/' :: o.name))
      ?hset
      (((mkBoxObject rootId pfx none) ::
        rawFolders.map (fun r => mkBoxObject r.id r.name r.parent_id)).length + 1) 0
      ((mkBoxObject rootId pfx none) ::
        rawFolders.map (fun r => mkBoxObject r.id r.name r.parent_id))
      ?hinit
    · rw [buildBox_folders_eq] at hj
      exact main j fol hj (by rw [hq]; exact fun hc => Option.noConfusion hc)
    case hinit =>
      intro j2 o hj2 hpar
      exfalso
      apply hpar
      cases j2 with
      | zero =>
        have : o = mkBoxObject rootId pfx none := by simpa using hj2.symm
        rw [this]; rfl
      | succ j3 =>
        rw [List.getElem?_cons_succ, List.getElem?_map] at hj2
        cases h0 : rawFolders[j3]? with
        | none => rw [h0] at hj2; simp at hj2
        | some r =>
          rw [h0] at hj2
          have : o = mkBoxObject r.id r.name r.parent_id := by simpa using hj2.symm
          rw [this]; rfl
    case hset =>
      intro st k p child par hP hk hp hc
      intro j2 o hj2 hpar
      unfold setParentAt at hj2
      rw [hk, hp, List.getElem?_set] at hj2
      by_cases hkj : k = j2
      · rw [if_pos hkj] at hj2
        have hlt : k < st.length := (List.getElem?_eq_some.mp hk).1
        rw [if_pos (hkj ▸ hlt)] at hj2
        have ho : o = { child with parent := some p, path := some (linkedPath par child) } := by
          simpa using hj2.symm
        refine ⟨pathOrName par, ?_⟩
        rw [ho]
        rfl
      · rw [if_neg hkj] at hj2
        exact hP j2 o hj2 hpar

/-- Claim C4, witness: in the 3-level tree, the file node `x.txt` is linked
to folder `A` (index 1) and its path is the parent's path plus `/x.txt`. -/
theorem c4_path_derivation_amended_witness :
    (threeLevelBox.files[0]? =
        some ⟨2, strOf "x.txt", some 1, some 1, some (strOf "D:/A/x.txt")⟩ ∧
      (⟨2, strOf "x.txt", some 1, some 1, some (strOf "D:/A/x.txt")⟩ : BoxObj).parent
        = some 1) ∧
    (∃ fol, threeLevelBox.folders[1]? = some fol ∧
      (⟨2, strOf "x.txt", some 1, some 1, some (strOf "D:/A/x.txt")⟩ : BoxObj).path =
        some (linkedPath fol
          ⟨2, strOf "x.txt", some 1, some 1, some (strOf "D:/A/x.txt")⟩)) :=
  ⟨⟨rfl, rfl⟩,
   (c4_path_derivation_amended (strOf "D:") 0 [⟨2, strOf "x.txt", some 1⟩]
      [⟨1, strOf "A", some 0⟩]).2.1 0
      ⟨2, strOf "x.txt", some 1, some 1, some (strOf "D:/A/x.txt")⟩ 1 rfl rfl⟩

/-- Claim C9, confirmed.  With no `root_directory`, `_get_root_folder`
returns the backend-designated root.  With a `root_directory`, it walks the
(prefix-stripped) directory segment by segment, at each level selecting a
child folder whose name equals the segment, and it raises
`FileNotFoundError` exactly when some partial walk reaches a folder that has
no child folder named like the next segment; the error propagates through
`Box.__init__`, aborting the build. -/
theorem c9_root_resolution :
    (∀ (pfx : Str) (root : RemoteItem), get_root_folder pfx root none = .ok root) ∧
    (∀ (pfx : Str) (root : RemoteItem) (rd : Str),
      get_root_folder pfx root (some rd) = .error () ↔
        ∃ (pre : List Str) (s : Str) (suf : List Str) (f : RemoteItem),
          splitSlash (stripRootDir pfx rd) = pre ++ s :: suf ∧
          walkSegs pre root = .ok f ∧
          findChildFolder (RemoteItem.childrenOf f) s = none) ∧
    (∀ (pfx : Str) (rd : Option Str) (root : RemoteItem)
        (rawFiles rawFolders : List RawBox),
      get_root_folder pfx root rd = .error () →
      box_init pfx rd root rawFiles rawFolders = .error ()) := by
  refine ⟨fun pfx root => rfl, fun pfx root rd => ?_, ?_⟩
  · have heq : get_root_folder pfx root (some rd) =
        walkSegs (splitSlash (stripRootDir pfx rd)) root := rfl
    rw [heq]
    exact walkSegs_error_iff _ root
  · intro pfx rd root rawFiles rawFolders h
    unfold box_init
    rw [h]

/-- Claim C9, witness: resolving `a/c` in the demo listing fails (folder `a`
has no child folder `c`), and the whole build aborts with the same error. -/
theorem c9_root_resolution_witness :
    get_root_folder (strOf "D:") demoTree (some (strOf "a/c")) = .error () ∧
    box_init (strOf "D:") (some (strOf "a/c")) demoTree [] [] = .error () :=
  ⟨rfl, c9_root_resolution.2.2 (strOf "D:") (some (strOf "a/c")) demoTree [] [] rfl⟩
